import Mathlib

/-!
Shallow embedding of the Smart Parking ESP32-CAM firmware
(SmartParking_Entrance.ino and SmartParking_SlotCamera.ino).

The Firebase realtime store is modelled as a record of partial maps:
a field read that fails (absent key or transport error — the firmware
cannot tell the two apart, `Firebase.get*` just returns false) is `none`.
Classifier confidences are rationals; prediction lists stand for the
`predictions` array of a parsed Roboflow response.
-/

namespace SmartParking

/-- One entry of the Roboflow `predictions` array: class label and confidence. -/
structure Prediction where
  cls : String
  conf : ℚ
deriving DecidableEq

/-- The fixed vehicle label set tested by both firmware files:
`cls == "car" || cls == "motorcycle" || cls == "truck"`. -/
def isVehicleClass (cls : String) : Bool :=
  cls == "car" || cls == "motorcycle" || cls == "truck"

/-- Output variables of `parseRoboflowResponse` (passed by reference in the C++):
`vehicleType`, `licensePlate`, `confidence`, initialised to `""`, `""`, `0.0`
by the caller (`loop`, lines 132–134). -/
structure ParseResult where
  vehicleType : String
  licensePlate : String
  confidence : ℚ
deriving DecidableEq

def initialParseResult : ParseResult :=
  { vehicleType := "", licensePlate := "", confidence := 0 }

/-- Body of the `for (JsonObject pred : predictions)` loop in
`parseRoboflowResponse` (entrance firmware, lines 302–316): a vehicle-labelled
prediction with confidence strictly above the running best replaces it;
independently a `license_plate` prediction with confidence above 0.5 sets the
plate sentinel. -/
def parseStep (acc : ParseResult) (pred : Prediction) : ParseResult :=
  let acc1 :=
    if isVehicleClass pred.cls && decide (acc.confidence < pred.conf) then
      { acc with vehicleType := pred.cls, confidence := pred.conf }
    else acc
  if pred.cls == "license_plate" && decide ((1 : ℚ) / 2 < pred.conf) then
    { acc1 with licensePlate := "PLATE_DETECTED" }
  else acc1

/-- `parseRoboflowResponse` (entrance firmware, lines 289–317), restricted to a
successfully deserialised `predictions` array. -/
def parseRoboflowResponse (predictions : List Prediction) : ParseResult :=
  predictions.foldl parseStep initialParseResult

/-- The acceptance gate in the entrance `loop` (lines 136–146): the parsed
result leads to a check-in only when `!vehicleType.isEmpty()` and
`bestConfidence >= CONFIDENCE_THRESHOLD`; otherwise no vehicle is reported.
The composition of `parseRoboflowResponse` with this gate is the Detection
Interpreter of the specification. -/
def loopDetectedVehicle (predictions : List Prediction) (threshold : ℚ) : Option String :=
  let r := parseRoboflowResponse predictions
  if r.vehicleType ≠ "" ∧ threshold ≤ r.confidence then some r.vehicleType else none

/-- One `parking_spots/slot_<n>` record.  Each field is `Option`-valued:
`none` means the corresponding `Firebase.get*` read fails (absent or error). -/
structure SlotRecord where
  type : Option String
  occupied : Option Bool
  vehicle_type : Option String
  license_plate : Option String
  entry_time : Option Int
deriving DecidableEq

/-- One record of the `logs/access` list, as built by `logAccess`
(entrance firmware, lines 393–404). -/
structure AccessLogEntry where
  action : String
  type : String
  plate : String
  slot : Int
  timestamp : Int
deriving DecidableEq

/-- The parts of the Firebase realtime database touched by the firmware:
the `parking_spots` namespace, the `checkin_count` counters, the
`alerts/full_capacity` append-only list and the `logs/access` append-only list. -/
structure Store where
  slots : Nat → SlotRecord
  checkin_count : String → Option Int
  alerts_full_capacity : List String
  logs_access : List AccessLogEntry

/-- Overwrite one slot record of the store. -/
def setSlot (store : Store) (slotId : Nat) (record : SlotRecord) : Store :=
  { store with slots := fun j => if j = slotId then record else store.slots j }

/-- The per-slot test inside `findAvailableSlot` (entrance firmware,
lines 350–361): the `type` read must succeed and equal `vehicleType`, then the
`occupied` read must succeed and yield `false`.  A failed read of either field
makes the test fail for this slot. -/
def slotMatchesFree (store : Store) (vehicleType : String) (i : Nat) : Bool :=
  match (store.slots i).type with
  | none => false
  | some slotType =>
    if slotType == vehicleType then
      match (store.slots i).occupied with
      | none => false
      | some occupied => !occupied
    else false

/-- The scan loop of `findAvailableSlot`: `for (int i = 0; i <= 10; i++)`,
recursing on the number of indices left to scan. -/
def findAvailableSlotAux (store : Store) (vehicleType : String) : Nat → Nat → Int
  | _, 0 => -1
  | i, r + 1 =>
    if slotMatchesFree store vehicleType i then (i : Int)
    else findAvailableSlotAux store vehicleType (i + 1) r

/-- Number of indices scanned by `findAvailableSlot`: `i = 0 .. 10`. -/
def slotScanCount : Nat := 11

/-- `findAvailableSlot` (entrance firmware, lines 344–365): first index in
`0..10` whose slot matches the vehicle type and reads unoccupied, `-1` if the
scan exhausts the range. -/
def findAvailableSlot (store : Store) (vehicleType : String) : Int :=
  findAvailableSlotAux store vehicleType 0 slotScanCount

/-- `assignSlot` (entrance firmware, lines 370–377): claim a slot by writing
`occupied=true`, the vehicle type, the plate and `entry_time = millis()/1000`. -/
def assignSlot (store : Store) (slotId : Nat) (vehicleType licensePlate : String)
    (nowMillis : Int) : Store :=
  setSlot store slotId
    { store.slots slotId with
      occupied := some true
      vehicle_type := some vehicleType
      license_plate := some licensePlate
      entry_time := some (nowMillis / 1000) }

/-- `incrementCheckinCount` (entrance firmware, lines 382–388): read the
current counter and write back its successor — only when the read succeeds;
a failed read leaves the store untouched. -/
def incrementCheckinCount (store : Store) (vehicleType : String) : Store :=
  match store.checkin_count vehicleType with
  | some current =>
    { store with
      checkin_count := fun t =>
        if t = vehicleType then some (current + 1) else store.checkin_count t }
  | none => store

/-- `logAccess` (entrance firmware, lines 393–404): push one record onto
`logs/access`. -/
def logAccess (store : Store) (action vehicleType plate : String) (slotId : Int)
    (nowMillis : Int) : Store :=
  { store with
    logs_access := store.logs_access ++
      [{ action := action, type := vehicleType, plate := plate, slot := slotId,
         timestamp := nowMillis / 1000 }] }

/-- The alert string pushed on capacity exhaustion
(`vehicleType + " parking full — " + String(millis())`). -/
def fullCapacityAlert (vehicleType : String) (nowMillis : Int) : String :=
  vehicleType ++ " parking full — " ++ toString nowMillis

/-- `processVehicleCheckIn` (entrance firmware, lines 323–338): find a slot;
on success assign it, bump the counter and append an access-log record; on
`-1` push exactly one `alerts/full_capacity` entry. -/
def processVehicleCheckIn (store : Store) (vehicleType licensePlate : String)
    (nowMillis : Int) : Store :=
  let slotId := findAvailableSlot store vehicleType
  if 0 ≤ slotId then
    logAccess
      (incrementCheckinCount (assignSlot store slotId.toNat vehicleType licensePlate nowMillis)
        vehicleType)
      "CHECK_IN" vehicleType licensePlate slotId nowMillis
  else
    { store with
      alerts_full_capacity :=
        store.alerts_full_capacity ++ [fullCapacityAlert vehicleType nowMillis] }

/-- `detectVehiclePresence` (slot-camera firmware, lines 650–666): true iff
some prediction carries a vehicle label with confidence at or above the
configured threshold. -/
def detectVehiclePresence (predictions : List Prediction) (threshold : ℚ) : Bool :=
  predictions.any fun pred => isVehicleClass pred.cls && decide (threshold ≤ pred.conf)

/-- `updateSlotOccupancy` (slot-camera firmware, lines 671–687): write
`occupied`, then on arrival write `entry_time = millis()/1000`, and on
departure clear `vehicle_type`, `license_plate` and `entry_time`. -/
def updateSlotOccupancy (store : Store) (slotId : Nat) (occupied : Bool)
    (nowMillis : Int) : Store :=
  let store1 := setSlot store slotId { store.slots slotId with occupied := some occupied }
  if occupied then
    setSlot store1 slotId { store1.slots slotId with entry_time := some (nowMillis / 1000) }
  else
    setSlot store1 slotId
      { store1.slots slotId with
        vehicle_type := some ""
        license_plate := some ""
        entry_time := some 0 }

/-- One ledger update issued by the slot camera: the `updateSlotOccupancy`
call for its slot (one logical store write). -/
structure LedgerWrite where
  slotId : Nat
  occupied : Bool
  nowMillis : Int
deriving DecidableEq

/-- The change-only core of the slot-camera `loop` (lines 547–554): after the
presence decision, the ledger is written only when `nowOccupied`
differs from `previousOccupied`, and `previousOccupied` is then updated.
The returned list records the ledger updates issued by this tick. -/
def slotCameraTick (store : Store) (slotId : Nat) (previousOccupied nowOccupied : Bool)
    (nowMillis : Int) : Store × Bool × List LedgerWrite :=
  if nowOccupied != previousOccupied then
    (updateSlotOccupancy store slotId nowOccupied nowMillis, nowOccupied,
      [{ slotId := slotId, occupied := nowOccupied, nowMillis := nowMillis }])
  else
    (store, previousOccupied, [])

/-- A run of consecutive slot-camera poll ticks, each given by its decided
presence and its `millis()` reading; collects all ledger updates issued. -/
def slotCameraRun (store : Store) (slotId : Nat) (previousOccupied : Bool) :
    List (Bool × Int) → Store × Bool × List LedgerWrite
  | [] => (store, previousOccupied, [])
  | (nowOccupied, nowMillis) :: rest =>
    let step := slotCameraTick store slotId previousOccupied nowOccupied nowMillis
    let next := slotCameraRun step.1 slotId step.2.1 rest
    (next.1, next.2.1, step.2.2 ++ next.2.2)

/-- The `setup` initialisation of `previousOccupied` (slot-camera firmware,
lines 491 and 506–510): declared `false`, overwritten by the slot's current
`occupied` value only when that startup read succeeds. -/
def setupPreviousOccupied (store : Store) (slotId : Nat) : Bool :=
  match (store.slots slotId).occupied with
  | some occupied => occupied
  | none => false

end SmartParking

namespace SmartParking

/-! ### Concrete stores used to instantiate the theorems -/

/-- A car-typed slot record with readable fields. -/
def demoSlot (occupied : Bool) : SlotRecord :=
  { type := some "car", occupied := some occupied, vehicle_type := some "",
    license_plate := some "", entry_time := some 0 }

/-- Car slots everywhere; slots 2 and 5 free, all others occupied. -/
def demoStore : Store :=
  { slots := fun i => if i = 2 || i = 5 then demoSlot false else demoSlot true
    checkin_count := fun _ => some 7
    alerts_full_capacity := []
    logs_access := [] }

/-- Every slot is a car slot and every slot is occupied. -/
def fullStore : Store :=
  { slots := fun _ => demoSlot true
    checkin_count := fun _ => some 0
    alerts_full_capacity := []
    logs_access := [] }

/-- Slot 0's `type` read fails while the slot is actually free; slot 1 is a
readable free car slot; every later slot is occupied. -/
def readFailStore : Store :=
  { slots := fun i =>
      if i = 0 then
        { type := none, occupied := some false, vehicle_type := none,
          license_plate := none, entry_time := none }
      else if i = 1 then demoSlot false
      else demoSlot true
    checkin_count := fun _ => some 0
    alerts_full_capacity := []
    logs_access := [] }

/-- Every read of every slot field fails, and so does every counter read. -/
def allFailStore : Store :=
  { slots := fun _ =>
      { type := none, occupied := none, vehicle_type := none,
        license_plate := none, entry_time := none }
    checkin_count := fun _ => none
    alerts_full_capacity := []
    logs_access := [] }

/-- Slot 0 is a free car slot, but the `checkin_count` read fails. -/
def noCounterStore : Store :=
  { slots := fun i => if i = 0 then demoSlot false else demoSlot true
    checkin_count := fun _ => none
    alerts_full_capacity := []
    logs_access := [] }

/-! ### Properties of the allocation scan -/

lemma findAvailableSlotAux_first (store : Store) (vehicleType : String) :
    ∀ (r i : Nat), (∃ j, i ≤ j ∧ j < i + r ∧ slotMatchesFree store vehicleType j = true) →
      ∃ m, i ≤ m ∧ m < i + r ∧ slotMatchesFree store vehicleType m = true ∧
        findAvailableSlotAux store vehicleType i r = (m : Int) ∧
        ∀ j, i ≤ j → j < m → slotMatchesFree store vehicleType j = false := by
  intro r
  induction r with
  | zero =>
    intro i ⟨j, hij, hj, _⟩
    omega
  | succ r ih =>
    intro i h
    by_cases hi : slotMatchesFree store vehicleType i = true
    · exact ⟨i, Nat.le_refl i, by omega, hi, by simp [findAvailableSlotAux, hi], by omega⟩
    · have hi' : slotMatchesFree store vehicleType i = false := by
        cases hfree : slotMatchesFree store vehicleType i
        · rfl
        · exact absurd hfree hi
      obtain ⟨j, hij, hjr, hjfree⟩ := h
      have hji : j ≠ i := fun hji => hi (hji ▸ hjfree)
      obtain ⟨m, him, hmr, hmfree, hmeq, hmfirst⟩ :=
        ih (i + 1) ⟨j, by omega, by omega, hjfree⟩
      refine ⟨m, by omega, by omega, hmfree, ?_, ?_⟩
      · simpa [findAvailableSlotAux, hi'] using hmeq
      · intro j' hij' hj'm
        rcases Nat.eq_or_lt_of_le hij' with h | h
        · exact h ▸ hi'
        · exact hmfirst j' h hj'm

lemma findAvailableSlotAux_none (store : Store) (vehicleType : String) :
    ∀ (r i : Nat), (∀ j, i ≤ j → j < i + r → slotMatchesFree store vehicleType j = false) →
      findAvailableSlotAux store vehicleType i r = -1 := by
  intro r
  induction r with
  | zero => intro i _; rfl
  | succ r ih =>
    intro i h
    have hi : slotMatchesFree store vehicleType i = false := h i (Nat.le_refl i) (by omega)
    simp only [findAvailableSlotAux, hi, Bool.false_eq_true, if_false]
    exact ih (i + 1) fun j h1 h2 => h j (by omega) (by omega)

lemma findAvailableSlotAux_mem (store : Store) (vehicleType : String) :
    ∀ (r i : Nat), findAvailableSlotAux store vehicleType i r = -1 ∨
      ∃ m : Nat, findAvailableSlotAux store vehicleType i r = (m : Int) ∧
        slotMatchesFree store vehicleType m = true := by
  intro r
  induction r with
  | zero => intro i; exact Or.inl rfl
  | succ r ih =>
    intro i
    by_cases hi : slotMatchesFree store vehicleType i = true
    · exact Or.inr ⟨i, by simp [findAvailableSlotAux, hi], hi⟩
    · have hi' : slotMatchesFree store vehicleType i = false := by
        cases hfree : slotMatchesFree store vehicleType i
        · rfl
        · exact absurd hfree hi
      simpa [findAvailableSlotAux, hi'] using ih (i + 1)

/-- C1 — First-fit allocation: whenever some slot in the scanned range `0..10`
has a matching `type` read and an `occupied` read of `false`, `findAvailableSlot`
returns the smallest such slot id. -/
theorem first_fit_allocation (store : Store) (vehicleType : String)
    (h : ∃ j, j ≤ 10 ∧ slotMatchesFree store vehicleType j = true) :
    ∃ m, m ≤ 10 ∧ slotMatchesFree store vehicleType m = true ∧
      findAvailableSlot store vehicleType = (m : Int) ∧
      ∀ j, j ≤ 10 → slotMatchesFree store vehicleType j = true → m ≤ j := by
  obtain ⟨j, hj, hfree⟩ := h
  obtain ⟨m, _, hm, hmfree, hmeq, hmfirst⟩ :=
    findAvailableSlotAux_first store vehicleType 11 0 ⟨j, Nat.zero_le j, by omega, hfree⟩
  refine ⟨m, by omega, hmfree, hmeq, ?_⟩
  intro j' _ hj'free
  by_contra hlt
  push_neg at hlt
  rw [hmfirst j' (Nat.zero_le j') hlt] at hj'free
  exact Bool.false_ne_true hj'free

/-- C1 witness: with car slots `{2, 5}` free and every other slot occupied,
`findAvailableSlot` returns 2. -/
theorem first_fit_allocation_witness :
    (∃ m, m ≤ 10 ∧ slotMatchesFree demoStore "car" m = true ∧
      findAvailableSlot demoStore "car" = (m : Int) ∧
      ∀ j, j ≤ 10 → slotMatchesFree demoStore "car" j = true → m ≤ j) ∧
    findAvailableSlot demoStore "car" = 2 :=
  ⟨first_fit_allocation demoStore "car" ⟨2, by decide, by decide⟩, by decide⟩

/-- C2 — Capacity exhaustion: when every slot of the matching type is occupied,
the scan returns `-1`, the check-in flow appends exactly one full-capacity
alert, and it performs no slot write, no counter write and no access-log
append. -/
theorem capacity_exhaustion (store : Store) (vehicleType licensePlate : String)
    (nowMillis : Int)
    (h : ∀ i, i ≤ 10 → (store.slots i).type = some vehicleType →
      (store.slots i).occupied = some true) :
    findAvailableSlot store vehicleType = -1 ∧
    (processVehicleCheckIn store vehicleType licensePlate nowMillis).alerts_full_capacity =
      store.alerts_full_capacity ++ [fullCapacityAlert vehicleType nowMillis] ∧
    (processVehicleCheckIn store vehicleType licensePlate nowMillis).slots = store.slots ∧
    (processVehicleCheckIn store vehicleType licensePlate nowMillis).checkin_count =
      store.checkin_count ∧
    (processVehicleCheckIn store vehicleType licensePlate nowMillis).logs_access =
      store.logs_access := by
  have hfree : ∀ j, 0 ≤ j → j < 0 + 11 → slotMatchesFree store vehicleType j = false := by
    intro j _ hj
    have hj10 : j ≤ 10 := by omega
    cases htype : (store.slots j).type with
    | none => simp [slotMatchesFree, htype]
    | some t =>
      by_cases ht : t = vehicleType
      · subst ht
        simp [slotMatchesFree, htype, h j hj10 htype]
      · simp [slotMatchesFree, htype, ht]
  have hneg : findAvailableSlot store vehicleType = -1 :=
    findAvailableSlotAux_none store vehicleType 11 0 hfree
  have hbranch : processVehicleCheckIn store vehicleType licensePlate nowMillis =
      { store with
        alerts_full_capacity :=
          store.alerts_full_capacity ++ [fullCapacityAlert vehicleType nowMillis] } := by
    unfold processVehicleCheckIn
    rw [hneg]
    norm_num
  rw [hbranch]
  exact ⟨hneg, rfl, rfl, rfl, rfl⟩

/-- C2 witness: in a store where every slot is an occupied car slot, checking
in a car pushes one alert and leaves all other state untouched. -/
theorem capacity_exhaustion_witness :
    findAvailableSlot fullStore "car" = -1 ∧
    (processVehicleCheckIn fullStore "car" "" 99).alerts_full_capacity =
      fullStore.alerts_full_capacity ++ [fullCapacityAlert "car" 99] ∧
    (processVehicleCheckIn fullStore "car" "" 99).slots = fullStore.slots ∧
    (processVehicleCheckIn fullStore "car" "" 99).checkin_count = fullStore.checkin_count ∧
    (processVehicleCheckIn fullStore "car" "" 99).logs_access = fullStore.logs_access :=
  capacity_exhaustion fullStore "car" "" 99 fun _ _ _ => rfl

/-! ### Properties of the detection interpreter -/

lemma parseStep_fields (acc : ParseResult) (pred : Prediction) :
    ((parseStep acc pred).vehicleType = acc.vehicleType ∧
      (parseStep acc pred).confidence = acc.confidence) ∨
    (isVehicleClass pred.cls = true ∧ acc.confidence < pred.conf ∧
      (parseStep acc pred).vehicleType = pred.cls ∧
      (parseStep acc pred).confidence = pred.conf) := by
  simp only [parseStep]
  by_cases h1 : (isVehicleClass pred.cls && decide (acc.confidence < pred.conf)) = true
  · rw [if_pos h1]
    rw [Bool.and_eq_true, decide_eq_true_eq] at h1
    right
    refine ⟨h1.1, h1.2, ?_, ?_⟩ <;> (split <;> rfl)
  · rw [if_neg h1]
    left
    constructor <;> (split <;> rfl)

lemma parse_foldl_source (preds : List Prediction) : ∀ acc : ParseResult,
    ((preds.foldl parseStep acc).vehicleType = acc.vehicleType ∧
      (preds.foldl parseStep acc).confidence = acc.confidence) ∨
    ∃ p ∈ preds, isVehicleClass p.cls = true ∧
      p.cls = (preds.foldl parseStep acc).vehicleType ∧
      p.conf = (preds.foldl parseStep acc).confidence := by
  induction preds with
  | nil => exact fun acc => Or.inl ⟨rfl, rfl⟩
  | cons p rest ih =>
    intro acc
    simp only [List.foldl_cons]
    rcases ih (parseStep acc p) with ⟨hv, hc⟩ | ⟨q, hq, hqveh, hqv, hqc⟩
    · rcases parseStep_fields acc p with ⟨h1, h2⟩ | ⟨hveh, _, h1, h2⟩
      · exact Or.inl ⟨hv.trans h1, hc.trans h2⟩
      · exact Or.inr ⟨p, by simp, hveh, (hv.trans h1).symm, (hc.trans h2).symm⟩
    · exact Or.inr ⟨q, by simp [hq], hqveh, hqv, hqc⟩

/-- C3 — Confidence floor: under the `loop` acceptance gate
(`!vehicleType.isEmpty() && bestConfidence >= CONFIDENCE_THRESHOLD`), a
prediction set whose vehicle candidates all sit strictly below the threshold
yields no vehicle, and every non-absent result comes from a vehicle candidate
at or above the threshold — so a candidate strictly below the threshold never
yields it. -/
theorem confidence_floor (predictions : List Prediction) (threshold : ℚ) :
    ((∀ p ∈ predictions, isVehicleClass p.cls = true → p.conf < threshold) →
      loopDetectedVehicle predictions threshold = none) ∧
    (∀ v, loopDetectedVehicle predictions threshold = some v →
      ∃ p ∈ predictions, isVehicleClass p.cls = true ∧ p.cls = v ∧ threshold ≤ p.conf) := by
  have hsome : ∀ v, loopDetectedVehicle predictions threshold = some v →
      ∃ p ∈ predictions, isVehicleClass p.cls = true ∧ p.cls = v ∧ threshold ≤ p.conf := by
    intro v hv
    unfold loopDetectedVehicle at hv
    by_cases hcond : (parseRoboflowResponse predictions).vehicleType ≠ "" ∧
        threshold ≤ (parseRoboflowResponse predictions).confidence
    · rw [if_pos hcond] at hv
      obtain ⟨hne, hth⟩ := hcond
      have hv' : (parseRoboflowResponse predictions).vehicleType = v := by
        injection hv
      rcases parse_foldl_source predictions initialParseResult with ⟨h1, _⟩ | ⟨p, hp, hveh, hcls, hconf⟩
      · exact absurd (h1.trans rfl) hne
      · exact ⟨p, hp, hveh, hcls.trans hv', by rw [hconf]; exact hth⟩
    · rw [if_neg hcond] at hv
      exact absurd hv (by simp)
  refine ⟨?_, hsome⟩
  intro hall
  cases hres : loopDetectedVehicle predictions threshold with
  | none => rfl
  | some v =>
    obtain ⟨p, hp, hveh, _, hth⟩ := hsome v hres
    exact absurd hth (not_le.mpr (hall p hp hveh))

/-- C3 witness: a lone car candidate below the threshold yields no vehicle,
and a non-absent result is backed by a candidate at or above the threshold. -/
theorem confidence_floor_witness :
    loopDetectedVehicle [⟨"car", 1⟩] (2 : ℚ) = none ∧
    (∃ p ∈ [Prediction.mk "car" 3], isVehicleClass p.cls = true ∧ p.cls = "car" ∧
      (2 : ℚ) ≤ p.conf) :=
  ⟨(confidence_floor [⟨"car", 1⟩] 2).1 (by decide),
   (confidence_floor [⟨"car", 3⟩] 2).2 "car" (by decide)⟩

lemma foldl_confidence_lt (c : ℚ) (preds : List Prediction) : ∀ acc : ParseResult,
    acc.confidence < c → (∀ q ∈ preds, isVehicleClass q.cls = true → q.conf < c) →
    (preds.foldl parseStep acc).confidence < c := by
  induction preds with
  | nil => exact fun acc h _ => h
  | cons q rest ih =>
    intro acc hacc hall
    simp only [List.foldl_cons]
    refine ih (parseStep acc q) ?_ fun q2 hq2 => hall q2 (by simp [hq2])
    rcases parseStep_fields acc q with ⟨_, h2⟩ | ⟨hveh, _, _, h2⟩
    · rw [h2]; exact hacc
    · rw [h2]; exact hall q (by simp) hveh

lemma foldl_keep (preds : List Prediction) : ∀ acc : ParseResult,
    (∀ q ∈ preds, isVehicleClass q.cls = true → q.conf ≤ acc.confidence) →
    (preds.foldl parseStep acc).vehicleType = acc.vehicleType ∧
    (preds.foldl parseStep acc).confidence = acc.confidence := by
  induction preds with
  | nil => exact fun acc _ => ⟨rfl, rfl⟩
  | cons q rest ih =>
    intro acc hall
    have hfix : (parseStep acc q).vehicleType = acc.vehicleType ∧
        (parseStep acc q).confidence = acc.confidence := by
      rcases parseStep_fields acc q with h | ⟨hveh, hlt, _, _⟩
      · exact h
      · exact absurd hlt (not_lt.mpr (hall q (by simp) hveh))
    simp only [List.foldl_cons]
    have hrest := ih (parseStep acc q)
      fun q2 hq2 hv => hfix.2 ▸ hall q2 (by simp [hq2]) hv
    exact ⟨hrest.1.trans hfix.1, hrest.2.trans hfix.2⟩

lemma parseStep_select (acc : ParseResult) (p : Prediction)
    (hveh : isVehicleClass p.cls = true) (hlt : acc.confidence < p.conf) :
    (parseStep acc p).vehicleType = p.cls ∧ (parseStep acc p).confidence = p.conf := by
  have h1 : (isVehicleClass p.cls && decide (acc.confidence < p.conf)) = true := by
    rw [Bool.and_eq_true, decide_eq_true_eq]
    exact ⟨hveh, hlt⟩
  simp only [parseStep]
  rw [if_pos h1]
  constructor <;> (split <;> rfl)

/-- C4 counterexample: two vehicle candidates tie at confidence 0, yet the
interpreter selects neither — `vehicleType` stays absent, not the first
candidate's class — because the update test is the strict
`conf > confidence` against a best initialised to `0.0`. -/
theorem tie_break_determinism_counterexample :
    isVehicleClass "car" = true ∧ isVehicleClass "truck" = true ∧
    (parseRoboflowResponse [⟨"car", 0⟩, ⟨"truck", 0⟩]).vehicleType = "" ∧
    (parseRoboflowResponse [⟨"car", 0⟩, ⟨"truck", 0⟩]).vehicleType ≠ "car" := by
  refine ⟨rfl, rfl, by decide, by decide⟩

/-- C4 (amended) — Tie-break determinism for positive confidences: the first
vehicle candidate whose (strictly positive) confidence is not exceeded by any
other vehicle candidate (later candidates may equal it) is the one
`parseRoboflowResponse` reports; in particular with several equal-maximal
candidates the first in input order wins.  A zero-confidence tie selects no
candidate at all (see the counterexample above). -/
theorem tie_break_determinism (xs ys : List Prediction) (p : Prediction)
    (hveh : isVehicleClass p.cls = true) (hpos : 0 < p.conf)
    (hxs : ∀ q ∈ xs, isVehicleClass q.cls = true → q.conf < p.conf)
    (hys : ∀ q ∈ ys, isVehicleClass q.cls = true → q.conf ≤ p.conf) :
    (parseRoboflowResponse (xs ++ p :: ys)).vehicleType = p.cls ∧
    (parseRoboflowResponse (xs ++ p :: ys)).confidence = p.conf := by
  unfold parseRoboflowResponse
  rw [List.foldl_append, List.foldl_cons]
  have hlt : (xs.foldl parseStep initialParseResult).confidence < p.conf :=
    foldl_confidence_lt p.conf xs initialParseResult hpos hxs
  have hsel := parseStep_select (xs.foldl parseStep initialParseResult) p hveh hlt
  have hkeep := foldl_keep ys (parseStep (xs.foldl parseStep initialParseResult) p)
    fun q hq hv => hsel.2 ▸ hys q hq hv
  exact ⟨hkeep.1.trans hsel.1, hkeep.2.trans hsel.2⟩

/-- C4 witness: a car and a truck candidate tie at confidence 2; the car,
first in input order, is selected. -/
theorem tie_break_determinism_witness :
    (parseRoboflowResponse ([] ++ Prediction.mk "car" 2 :: [Prediction.mk "truck" 2])).vehicleType
      = "car" ∧
    (parseRoboflowResponse ([] ++ Prediction.mk "car" 2 :: [Prediction.mk "truck" 2])).confidence
      = 2 :=
  tie_break_determinism [] [⟨"truck", 2⟩] ⟨"car", 2⟩ (by decide) (by decide) (by decide)
    (by decide)

/-! ### Properties of the occupancy tracker -/

/-- C5 — Vacate clears metadata: the vacate path of `updateSlotOccupancy`
(occupied goes from `true` to `false`) writes `occupied=false`,
`vehicle_type=""`, `license_plate=""` and `entry_time=0` for the slot in the
same logical update. -/
theorem vacate_clears_metadata (store : Store) (slotId : Nat) (nowMillis : Int)
    (_h : (store.slots slotId).occupied = some true) :
    ((updateSlotOccupancy store slotId false nowMillis).slots slotId).occupied = some false ∧
    ((updateSlotOccupancy store slotId false nowMillis).slots slotId).vehicle_type = some "" ∧
    ((updateSlotOccupancy store slotId false nowMillis).slots slotId).license_plate = some "" ∧
    ((updateSlotOccupancy store slotId false nowMillis).slots slotId).entry_time = some 0 := by
  simp [updateSlotOccupancy, setSlot]

/-- C5 witness: vacating occupied slot 3 of the all-occupied store clears its
metadata. -/
theorem vacate_clears_metadata_witness :
    ((updateSlotOccupancy fullStore 3 false 7000).slots 3).occupied = some false ∧
    ((updateSlotOccupancy fullStore 3 false 7000).slots 3).vehicle_type = some "" ∧
    ((updateSlotOccupancy fullStore 3 false 7000).slots 3).license_plate = some "" ∧
    ((updateSlotOccupancy fullStore 3 false 7000).slots 3).entry_time = some 0 :=
  vacate_clears_metadata fullStore 3 7000 rfl

/-- C9 — Idempotent re-vacate: applying the vacate update twice (at any two
`millis()` readings) leaves exactly the store produced by applying it once. -/
theorem idempotent_revacate (store : Store) (slotId : Nat) (n1 n2 : Int) :
    updateSlotOccupancy (updateSlotOccupancy store slotId false n1) slotId false n2 =
      updateSlotOccupancy store slotId false n1 := by
  unfold updateSlotOccupancy setSlot
  simp only [Bool.false_eq_true, if_false]
  congr 1
  funext j
  by_cases hj : j = slotId <;> simp [hj]

lemma slotCameraTick_same (store : Store) (slotId : Nat) (prev : Bool) (ms : Int) :
    slotCameraTick store slotId prev prev ms = (store, prev, []) := by
  simp [slotCameraTick]

lemma slotCameraTick_flip (store : Store) (slotId : Nat) (prev occ : Bool) (ms : Int)
    (h : occ ≠ prev) :
    slotCameraTick store slotId prev occ ms =
      (updateSlotOccupancy store slotId occ ms, occ,
        [{ slotId := slotId, occupied := occ, nowMillis := ms }]) := by
  simp [slotCameraTick, bne_iff_ne, h]

lemma slotCameraRun_cons (store : Store) (slotId : Nat) (prev occ : Bool) (ms : Int)
    (rest : List (Bool × Int)) :
    slotCameraRun store slotId prev ((occ, ms) :: rest) =
      ((slotCameraRun (slotCameraTick store slotId prev occ ms).1 slotId
          (slotCameraTick store slotId prev occ ms).2.1 rest).1,
       (slotCameraRun (slotCameraTick store slotId prev occ ms).1 slotId
          (slotCameraTick store slotId prev occ ms).2.1 rest).2.1,
       (slotCameraTick store slotId prev occ ms).2.2 ++
         (slotCameraRun (slotCameraTick store slotId prev occ ms).1 slotId
            (slotCameraTick store slotId prev occ ms).2.1 rest).2.2) := rfl

lemma slotCameraRun_nochange (slotId : Nat) (ticks : List (Bool × Int)) :
    ∀ (store : Store) (prev : Bool), (∀ t ∈ ticks, t.1 = prev) →
      slotCameraRun store slotId prev ticks = (store, prev, []) := by
  induction ticks with
  | nil => intro store prev _; rfl
  | cons t rest ih =>
    intro store prev h
    obtain ⟨occ, ms⟩ := t
    have h1 : occ = prev := h (occ, ms) (by simp)
    subst h1
    rw [slotCameraRun_cons, slotCameraTick_same]
    simp only [List.nil_append]
    rw [ih store occ fun t ht => h t (by simp [ht])]

lemma slotCameraRun_append (slotId : Nat) (l1 : List (Bool × Int)) :
    ∀ (l2 : List (Bool × Int)) (store : Store) (prev : Bool),
      slotCameraRun store slotId prev (l1 ++ l2) =
        ((slotCameraRun (slotCameraRun store slotId prev l1).1 slotId
            (slotCameraRun store slotId prev l1).2.1 l2).1,
         (slotCameraRun (slotCameraRun store slotId prev l1).1 slotId
            (slotCameraRun store slotId prev l1).2.1 l2).2.1,
         (slotCameraRun store slotId prev l1).2.2 ++
           (slotCameraRun (slotCameraRun store slotId prev l1).1 slotId
              (slotCameraRun store slotId prev l1).2.1 l2).2.2) := by
  induction l1 with
  | nil => intro l2 store prev; simp [slotCameraRun]
  | cons t l1 ih =>
    intro l2 store prev
    obtain ⟨occ, ms⟩ := t
    simp only [List.cons_append, slotCameraRun_cons, ih]
    simp [List.append_assoc]

/-- C6 — Change-only write: a run of poll ticks whose decided presence always
equals the previously observed state issues no ledger write, and appending the
single tick on which presence flips issues exactly one ledger write (the
`updateSlotOccupancy` call for that slot). -/
theorem change_only_write (store : Store) (slotId : Nat) (prev : Bool)
    (ticks : List (Bool × Int)) (flipOcc : Bool) (flipMillis : Int)
    (hsame : ∀ t ∈ ticks, t.1 = prev) (hflip : flipOcc ≠ prev) :
    (slotCameraRun store slotId prev ticks).2.2 = [] ∧
    (slotCameraRun store slotId prev (ticks ++ [(flipOcc, flipMillis)])).2.2 =
      [{ slotId := slotId, occupied := flipOcc, nowMillis := flipMillis }] := by
  have h1 := slotCameraRun_nochange slotId ticks store prev hsame
  have hbne : (flipOcc != prev) = true := by
    simp [bne_iff_ne, hflip]
  constructor
  · rw [h1]
  · rw [slotCameraRun_append, h1]
    simp [slotCameraRun, slotCameraTick, hbne]

/-- C6 witness: two unchanged ticks issue no write; the flip tick issues
exactly one. -/
theorem change_only_write_witness :
    (slotCameraRun demoStore 0 false [(false, 1), (false, 2)]).2.2 = [] ∧
    (slotCameraRun demoStore 0 false ([(false, 1), (false, 2)] ++ [(true, 3)])).2.2 =
      [{ slotId := 0, occupied := true, nowMillis := 3 }] :=
  change_only_write demoStore 0 false [(false, 1), (false, 2)] true 3 (by decide) (by decide)

lemma slotCameraRun_store_indep (slotId : Nat) (ticks : List (Bool × Int)) :
    ∀ (s1 s2 : Store) (prev : Bool),
      (slotCameraRun s1 slotId prev ticks).2.1 = (slotCameraRun s2 slotId prev ticks).2.1 ∧
      (slotCameraRun s1 slotId prev ticks).2.2 = (slotCameraRun s2 slotId prev ticks).2.2 := by
  induction ticks with
  | nil => intro s1 s2 prev; exact ⟨rfl, rfl⟩
  | cons t rest ih =>
    intro s1 s2 prev
    obtain ⟨occ, ms⟩ := t
    by_cases hop : occ = prev
    · subst hop
      simp only [slotCameraRun_cons, slotCameraTick_same, List.nil_append]
      exact ih s1 s2 occ
    · simp only [slotCameraRun_cons, slotCameraTick_flip _ _ _ _ _ hop]
      have := ih (updateSlotOccupancy s1 slotId occ ms) (updateSlotOccupancy s2 slotId occ ms) occ
      exact ⟨this.1, by rw [this.2]⟩

/-- C10 — Implicit cold-start default: when the startup read of the slot's
`occupied` field fails, `previousOccupied` keeps its declared default `false`;
and the poll loop never reads it back from the store — its decisions, final
local state and issued ledger writes are the same over any two stores. -/
theorem cold_start_default (s1 s2 : Store) (slotId : Nat) (prev : Bool)
    (ticks : List (Bool × Int))
    (hfail : (s1.slots slotId).occupied = none) :
    setupPreviousOccupied s1 slotId = false ∧
    (slotCameraRun s1 slotId prev ticks).2.1 = (slotCameraRun s2 slotId prev ticks).2.1 ∧
    (slotCameraRun s1 slotId prev ticks).2.2 = (slotCameraRun s2 slotId prev ticks).2.2 := by
  refine ⟨?_, slotCameraRun_store_indep slotId ticks s1 s2 prev⟩
  unfold setupPreviousOccupied
  rw [hfail]

/-- C10 witness: a failed startup read leaves `previousOccupied = false`, and
a run over the unreadable store issues the same writes as over a readable one. -/
theorem cold_start_default_witness :
    setupPreviousOccupied allFailStore 0 = false ∧
    (slotCameraRun allFailStore 0 false [(true, 1)]).2.1 =
      (slotCameraRun demoStore 0 false [(true, 1)]).2.1 ∧
    (slotCameraRun allFailStore 0 false [(true, 1)]).2.2 =
      (slotCameraRun demoStore 0 false [(true, 1)]).2.2 :=
  cold_start_default allFailStore demoStore 0 false [(true, 1)] rfl

/-! ### Read failures during the allocation scan -/

lemma slotMatchesFree_of_read_fail (store : Store) (vehicleType : String) (i : Nat)
    (hfail : (store.slots i).type = none ∨ (store.slots i).occupied = none) :
    slotMatchesFree store vehicleType i = false := by
  rcases hfail with h | h
  · simp [slotMatchesFree, h]
  · cases htype : (store.slots i).type with
    | none => simp [slotMatchesFree, htype]
    | some t =>
      by_cases ht : t = vehicleType
      · subst ht
        simp [slotMatchesFree, htype, h]
      · simp [slotMatchesFree, htype, ht]

/-- C7 counterexample: slot 0's `type` read fails while the Allocator scans,
yet the allocation attempt is not aborted and does not behave like capacity
exhaustion — the scan claims slot 1 in the same tick. -/
theorem store_read_failure_counterexample :
    (readFailStore.slots 0).type = none ∧
    findAvailableSlot readFailStore "car" = 1 ∧
    ((processVehicleCheckIn readFailStore "car" "" 5000).slots 1).occupied = some true :=
  ⟨rfl, by decide, by decide⟩

/-- C7 (amended) — A failed store read makes the scan skip that slot and
continue: a slot one of whose reads fails is never the returned slot, and only
when every slot of the range has a failing read does the attempt end as `-1`
with the capacity-exhaustion effect (no slot written that tick). -/
theorem store_read_failure_skips_slot (store : Store) (vehicleType licensePlate : String)
    (nowMillis : Int) (i : Nat)
    (hfail : (store.slots i).type = none ∨ (store.slots i).occupied = none) :
    findAvailableSlot store vehicleType ≠ (i : Int) ∧
    ((∀ j, j ≤ 10 → (store.slots j).type = none ∨ (store.slots j).occupied = none) →
      findAvailableSlot store vehicleType = -1 ∧
      (processVehicleCheckIn store vehicleType licensePlate nowMillis).slots = store.slots) := by
  have hi : slotMatchesFree store vehicleType i = false :=
    slotMatchesFree_of_read_fail store vehicleType i hfail
  constructor
  · rcases findAvailableSlotAux_mem store vehicleType 11 0 with h | ⟨m, hm, hmfree⟩
    · rw [show findAvailableSlot store vehicleType = -1 from h]
      intro hcontra
      omega
    · rw [show findAvailableSlot store vehicleType = (m : Int) from hm]
      intro hcontra
      have hmi : m = i := by exact_mod_cast hcontra
      rw [hmi, hi] at hmfree
      exact Bool.false_ne_true hmfree
  · intro hall
    have hneg : findAvailableSlot store vehicleType = -1 :=
      findAvailableSlotAux_none store vehicleType 11 0 fun j _ hj =>
        slotMatchesFree_of_read_fail store vehicleType j (hall j (by omega))
    refine ⟨hneg, ?_⟩
    unfold processVehicleCheckIn
    rw [hneg]
    norm_num

/-- C7 witness (for the amended claim): in the store where every read fails,
slot 0 is skipped, the scan returns `-1` and no slot is written. -/
theorem store_read_failure_skips_slot_witness :
    findAvailableSlot allFailStore "car" ≠ ((0 : Nat) : Int) ∧
    ((∀ j, j ≤ 10 → (allFailStore.slots j).type = none ∨
        (allFailStore.slots j).occupied = none) →
      findAvailableSlot allFailStore "car" = -1 ∧
      (processVehicleCheckIn allFailStore "car" "" 0).slots = allFailStore.slots) :=
  store_read_failure_skips_slot allFailStore "car" "" 0 0 (Or.inl rfl)

/-! ### Side effects of a successful check-in -/

lemma incrementCheckinCount_logs (store : Store) (vehicleType : String) :
    (incrementCheckinCount store vehicleType).logs_access = store.logs_access := by
  unfold incrementCheckinCount
  cases store.checkin_count vehicleType <;> rfl

lemma incrementCheckinCount_some (store : Store) (vehicleType : String) (n : Int)
    (h : store.checkin_count vehicleType = some n) :
    (incrementCheckinCount store vehicleType).checkin_count vehicleType = some (n + 1) := by
  unfold incrementCheckinCount
  rw [h]
  simp

lemma incrementCheckinCount_none (store : Store) (vehicleType : String)
    (h : store.checkin_count vehicleType = none) :
    (incrementCheckinCount store vehicleType).checkin_count = store.checkin_count := by
  unfold incrementCheckinCount
  rw [h]

/-- C8 counterexample: with the `checkin_count/car` read failing, a successful
allocation (slot 0 is claimed) increments no counter — the counter read after
check-in still fails, so no write of `old + 1` happened. -/
theorem allocation_side_effects_counterexample :
    0 ≤ findAvailableSlot noCounterStore "car" ∧
    noCounterStore.checkin_count "car" = none ∧
    (processVehicleCheckIn noCounterStore "car" "" 1000).checkin_count "car" = none :=
  ⟨by decide, rfl, by decide⟩

/-- C8 (amended) — On every successful allocation the check-in flow appends
exactly one access-log entry; it increments the per-vehicle-type counter by
exactly one provided the counter read succeeds, and performs no counter write
when that read fails. -/
theorem allocation_side_effects (store : Store) (vehicleType licensePlate : String)
    (nowMillis : Int) (m : Nat)
    (hfind : findAvailableSlot store vehicleType = (m : Int)) :
    (processVehicleCheckIn store vehicleType licensePlate nowMillis).logs_access =
      store.logs_access ++
        [{ action := "CHECK_IN", type := vehicleType, plate := licensePlate,
           slot := (m : Int), timestamp := nowMillis / 1000 }] ∧
    (∀ n, store.checkin_count vehicleType = some n →
      (processVehicleCheckIn store vehicleType licensePlate nowMillis).checkin_count
        vehicleType = some (n + 1)) ∧
    (store.checkin_count vehicleType = none →
      (processVehicleCheckIn store vehicleType licensePlate nowMillis).checkin_count =
        store.checkin_count) := by
  have hpos : (0 : Int) ≤ (m : Int) := Int.natCast_nonneg m
  have hbranch : processVehicleCheckIn store vehicleType licensePlate nowMillis =
      logAccess
        (incrementCheckinCount
          (assignSlot store ((m : Int)).toNat vehicleType licensePlate nowMillis) vehicleType)
        "CHECK_IN" vehicleType licensePlate (m : Int) nowMillis := by
    unfold processVehicleCheckIn
    rw [hfind, if_pos hpos]
  rw [hbranch]
  refine ⟨?_, ?_, ?_⟩
  · unfold logAccess
    simp only []
    rw [incrementCheckinCount_logs]
    rfl
  · intro n hn
    have hassign : (assignSlot store ((m : Int)).toNat vehicleType licensePlate
        nowMillis).checkin_count = store.checkin_count := rfl
    show (incrementCheckinCount _ vehicleType).checkin_count vehicleType = some (n + 1)
    exact incrementCheckinCount_some _ vehicleType n (hassign ▸ hn)
  · intro hn
    have hassign : (assignSlot store ((m : Int)).toNat vehicleType licensePlate
        nowMillis).checkin_count = store.checkin_count := rfl
    show (incrementCheckinCount _ vehicleType).checkin_count = store.checkin_count
    rw [incrementCheckinCount_none _ vehicleType (hassign ▸ hn), hassign]

/-- C8 witness (for the amended claim): checking a car into the store with
slots `{2, 5}` free appends one access-log entry, and the readable counter
`some 7` becomes `some 8`. -/
theorem allocation_side_effects_witness :
    ((processVehicleCheckIn demoStore "car" "ABC" 5000).logs_access =
      demoStore.logs_access ++
        [{ action := "CHECK_IN", type := "car", plate := "ABC",
           slot := ((2 : Nat) : Int), timestamp := 5000 / 1000 }] ∧
    (∀ n, demoStore.checkin_count "car" = some n →
      (processVehicleCheckIn demoStore "car" "ABC" 5000).checkin_count "car" = some (n + 1)) ∧
    (demoStore.checkin_count "car" = none →
      (processVehicleCheckIn demoStore "car" "ABC" 5000).checkin_count =
        demoStore.checkin_count)) ∧
    (processVehicleCheckIn demoStore "car" "ABC" 5000).checkin_count "car" = some 8 :=
  ⟨allocation_side_effects demoStore "car" "ABC" 5000 2 (by decide), by decide⟩

end SmartParking
